import Mathlib

/-!
Verification of the Relationship Discovery Engine and the dependency-graph
renderer of the resource-topology application.

The discovery engine lives in `server/aws.js` (`discoverResourceRelationships`,
`getSecurityGroupConnections`, `processSecurityGroupRule` and the per-type
helper lookups); the renderer lives in
`src/components/ResourceDependencyGraph.tsx`.  Remote AWS calls are modelled by
an explicit environment `Env` whose fields return `Option` values: `none`
models a thrown/remote failure (every remote helper in the source catches its
own errors and returns an empty list), `some` returns the remote data already
flattened to the shape the discovery logic consumes.
-/

/-! ### String helpers mirroring the JavaScript string operations used -/

/-- Leading-segment test on character lists (building block for the
`endsWith` / `includes` string operations used by the source). -/
def listStartsWith : List Char → List Char → Bool
  | [], _ => true
  | _ :: _, [] => false
  | a :: as, b :: bs => a == b && listStartsWith as bs

/-- Contiguous-subsequence test on character lists. -/
def listContainsSeq (pat : List Char) : List Char → Bool
  | [] => pat.isEmpty
  | c :: cs => listStartsWith pat (c :: cs) || listContainsSeq pat cs

/-- JavaScript `s.includes(pat)`. -/
def strContains (s pat : String) : Bool := listContainsSeq pat.data s.data

/-- JavaScript `s.endsWith(post)`. -/
def strEndsWith (s post : String) : Bool :=
  listStartsWith post.data.reverse s.data.reverse

/-- Auxiliary splitter; `acc` holds the current segment reversed. -/
def splitChAux (c : Char) : List Char → List Char → List String
  | [], acc => [String.mk acc.reverse]
  | x :: xs, acc =>
    if x == c then String.mk acc.reverse :: splitChAux c xs []
    else splitChAux c xs (x :: acc)

/-- JavaScript `s.split(c)` for a single-character separator. -/
def splitChar (c : Char) (s : String) : List String := splitChAux c s.data []

/-- JavaScript `s.split(c).pop()`: the last segment of `s` split at `c`. -/
def lastSegment (c : Char) (s : String) : String := (splitChar c s).getLastD ""

/-! ### Data model (section 3 of the source: resource and relationship shapes) -/

/-- Direction of a security-group rule (`'inbound'` / `'outbound'` in the
source). -/
inductive Direction where
  | inbound
  | outbound
deriving DecidableEq

/-- The `RelationshipType` enum exported by `server/aws.js`. -/
inductive RelationshipType where
  | routes_to
  | depends_on
  | triggers
  | connects_to
  | part_of
  | instance_of
deriving DecidableEq

/-- One entry of `metadata.securityGroups.rules`. -/
structure RuleMeta where
  protocol : Option String
  fromPort : Option Int
  toPort : Option Int
  securityGroupId : String
  direction : Direction
deriving DecidableEq

/-- The `metadata.securityGroups` sub-object of `connects_to` edges. -/
structure SGMeta where
  source : List String
  target : List String
  rules : List RuleMeta
deriving DecidableEq

/-- The metadata bag attached to a relationship; one constructor per shape
the source produces. -/
inductive EdgeMeta where
  | none
  | protocolPort (protocol : Option String) (port : Option Int)
  | eventType (eventType : String)
  | accessType (accessType : String)
  | methodPath (method : String) (path : String)
  | targetRef (targetId : String)
  | stateType (stateType : String)
  | securityGroups (sg : SGMeta)
deriving DecidableEq

/-- A discovered relationship edge. -/
structure Relationship where
  sourceId : String
  targetId : String
  type : RelationshipType
  metadata : EdgeMeta
deriving DecidableEq

/-- A resource descriptor, restricted to the fields the discovery engine and
renderer read.  `detailsClusterName` is `details.clusterName`;
`detailsNetworkSecurityGroups` is
`details.networkConfiguration.awsvpcConfiguration.securityGroups` (absent
levels of the chain collapse to `none`). -/
structure Resource where
  id : String
  name : String
  type : String
  application : String
  region : String
  tags : List (String × String)
  securityGroups : Option (List String)
  clusterId : Option String
  detailsClusterName : Option String
  detailsNetworkSecurityGroups : Option (List String)
deriving DecidableEq

/-- A `UserIdGroupPairs` entry of a security-group rule. -/
structure SGRef where
  groupId : String
deriving DecidableEq

/-- A security-group rule (`IpPermissions` entry). -/
structure SGRule where
  ipProtocol : Option String
  fromPort : Option Int
  toPort : Option Int
  userIdGroupPairs : List SGRef
deriving DecidableEq

/-- A security group as returned by `DescribeSecurityGroups`. -/
structure SecurityGroup where
  groupId : String
  ipPermissions : List SGRule
  ipPermissionsEgress : List SGRule
deriving DecidableEq

/-- A load-balancer target, flattened from target groups and target health
(`getLoadBalancerTargets`): `clusterName` carries
`target.Target.AvailabilityZone`. -/
structure LBTarget where
  targetId : String
  port : Option Int
  protocol : Option String
  clusterName : Option String
deriving DecidableEq

/-- A statement of a Lambda resource policy, reduced to the two fields
`getLambdaTriggers` reads (`Principal.Service` and the source ARN from the
`ArnLike`/`ArnEquals` condition). -/
structure PolicyStatement where
  principalService : Option String
  sourceArn : Option String
deriving DecidableEq

/-- An inbound Lambda trigger extracted from the resource policy. -/
structure LambdaTrigger where
  sourceArn : String
  eventType : String
deriving DecidableEq

/-- An outbound Lambda dependency extracted from environment variables. -/
structure LambdaDependency where
  targetArn : String
  accessType : String
deriving DecidableEq

/-- An API Gateway method integration (`getApiGatewayIntegrations` output
shape). -/
structure ApiIntegration where
  uri : String
  method : String
  path : String
deriving DecidableEq

/-- An EventBridge rule target. -/
structure EBTarget where
  id : String
  arn : String
deriving DecidableEq

/-- A Step Functions invocation target (never produced: the definition parser
is unimplemented in the source). -/
structure StepTarget where
  arn : String
  stateType : String
deriving DecidableEq

/-- The remote environment: each field models one AWS lookup the discovery
engine performs.  `none` models a thrown error or missing data (each helper in
the source catches and returns `[]`). -/
structure Env where
  lbTargets : String → Option (List LBTarget)
  lambdaPolicy : String → Option (List PolicyStatement)
  lambdaEnvVars : String → Option (List (String × String))
  apiIntegrations : String → Option (List ApiIntegration)
  ebTargets : String → Option (List EBTarget)
  describeSecurityGroups : List String → Option (List SecurityGroup)

/-! ### Security-group cross-reference resolver -/

/-- `resource.tags.SecurityGroups`, with the JavaScript truthiness check: a
missing or empty-string tag is falsy. -/
def tagSecurityGroups (res : Resource) : Option String :=
  match res.tags.lookup "SecurityGroups" with
  | some s => if s = "" then Option.none else some s
  | none => Option.none

/-- The filter predicate of `processSecurityGroupRule`: does resource `r`
hold security group `gid` (own field, then tag fallback, then network
configuration)? -/
def usesSG (gid : String) (r : Resource) : Bool :=
  match r.securityGroups with
  | some l => l.contains gid
  | none =>
    match tagSecurityGroups r with
    | some s => (splitChar ',' s).contains gid
    | none =>
      match r.detailsNetworkSecurityGroups with
      | some l => l.contains gid
      | none => false

/-- Security-group id resolution at the head of `getSecurityGroupConnections`
(own field, then tag fallback, then network configuration). -/
def resolveSecurityGroupIds (res : Resource) : List String :=
  match res.securityGroups with
  | some l => l
  | none =>
    match tagSecurityGroups res with
    | some s => splitChar ',' s
    | none =>
      match res.detailsNetworkSecurityGroups with
      | some l => l
      | none => []

/-- The hardcoded mock security-group ids of the source. -/
def mockSecurityGroupIds : List String := ["sg-0123456789abcdef0"]

/-- The synthetic edge `getSecurityGroupConnections` returns for the fixture
ECS service `service-test-2`. -/
def mockServiceConnection (res db : Resource) : Relationship :=
  ⟨res.id, db.id, .connects_to,
   .securityGroups ⟨["sg-0123456789abcdef0"], db.securityGroups.getD [],
     [⟨some "tcp", some 3306, some 3306, "sg-0123456789abcdef0", .outbound⟩]⟩⟩

/-- The synthetic mirrored edge `processSecurityGroupRule` pushes for the
fixture database instance `database-2-instance-1`. -/
def mockRuleConnection (ecsService res : Resource) (sourceGroupId : String) :
    Relationship :=
  ⟨ecsService.id, res.id, .connects_to,
   .securityGroups ⟨["sg-0123456789abcdef0"], [sourceGroupId],
     [⟨some "tcp", some 3306, some 3306, sourceGroupId, .inbound⟩]⟩⟩

/-- `processSecurityGroupRule(rule, sourceResource, allResources,
sourceGroupId, direction)`. -/
def processSecurityGroupRule (rule : SGRule) (sourceResource : Resource)
    (allResources : List Resource) (sourceGroupId : String)
    (direction : Direction) : List Relationship :=
  let mockPart :=
    if sourceResource.name == "database-2-instance-1" &&
       sourceResource.application == "test-app2" then
      match allResources.find? (fun r =>
          r.type == "ecs" && r.application == "test-app2" &&
          r.name == "service-test-2") with
      | some ecsService => [mockRuleConnection ecsService sourceResource sourceGroupId]
      | none => []
    else []
  let genericPart := rule.userIdGroupPairs.flatMap fun sgRef =>
    ((allResources.filter (fun r => usesSG sgRef.groupId r)).filter
        (fun t => t.id != sourceResource.id)).map fun t =>
      ⟨(if direction = .inbound then t.id else sourceResource.id),
       (if direction = .inbound then sourceResource.id else t.id),
       .connects_to,
       .securityGroups
         ⟨(if direction = .inbound then [sgRef.groupId] else [sourceGroupId]),
          (if direction = .inbound then [sourceGroupId] else [sgRef.groupId]),
          [⟨rule.ipProtocol, rule.fromPort, rule.toPort, sgRef.groupId,
            direction⟩]⟩⟩
  mockPart ++ genericPart

/-- `getSecurityGroupConnections(resource, allResources)`. -/
def getSecurityGroupConnections (env : Env) (res : Resource)
    (allResources : List Resource) : List Relationship :=
  let securityGroupIds := resolveSecurityGroupIds res
  if securityGroupIds.isEmpty then []
  else if securityGroupIds.any (fun i => mockSecurityGroupIds.contains i) then
    if res.name == "database-2-instance-1" && res.application == "test-app2" then
      []
    else if res.name == "service-test-2" && res.application == "test-app2" then
      match allResources.find? (fun r =>
          r.type == "aurora-instance" && r.name == "database-2-instance-1") with
      | some db => [mockServiceConnection res db]
      | none => []
    else []
  else
    match env.describeSecurityGroups securityGroupIds with
    | none => []
    | some sgs =>
      sgs.flatMap fun sg =>
        (sg.ipPermissions.flatMap fun rule =>
          processSecurityGroupRule rule res allResources sg.groupId .inbound)
        ++ sg.ipPermissionsEgress.flatMap fun rule =>
          processSecurityGroupRule rule res allResources sg.groupId .outbound

/-! ### Per-type relationship extractors (the `switch` of
`discoverResourceRelationships`) -/

/-- `getLoadBalancerTargets` (remote data, `[]` on error). -/
def getLoadBalancerTargets (env : Env) (lb : Resource) : List LBTarget :=
  (env.lbTargets lb.id).getD []

/-- The `alb`/`nlb` case: match each target to a compute resource by id or by
hosting-cluster name and emit `routes_to`. -/
def processLoadBalancer (env : Env) (allResources : List Resource)
    (res : Resource) : List Relationship :=
  (getLoadBalancerTargets env res).filterMap fun t =>
    (allResources.find? (fun r =>
        (r.type == "ec2" && r.id == t.targetId) ||
        (r.type == "ecs" && r.detailsClusterName == t.clusterName))).map fun tr =>
      ⟨res.id, tr.id, .routes_to, .protocolPort t.protocol t.port⟩

/-- `getLambdaTriggers`: statements of the resource policy that carry a
service principal and a source ARN. -/
def getLambdaTriggers (env : Env) (lambdaRes : Resource) : List LambdaTrigger :=
  match env.lambdaPolicy lambdaRes.name with
  | some stmts =>
    stmts.filterMap fun st =>
      match st.principalService, st.sourceArn with
      | some svc, some arn => some ⟨arn, svc⟩
      | _, _ => Option.none
  | none => []

/-- `getLambdaDependencies`: environment-variable values containing an
`arn:aws` substring. -/
def getLambdaDependencies (env : Env) (lambdaRes : Resource) :
    List LambdaDependency :=
  match env.lambdaEnvVars lambdaRes.name with
  | some vars =>
    vars.filterMap fun kv =>
      if strContains kv.2 "arn:aws" then some ⟨kv.2, "environment"⟩
      else Option.none
  | none => []

/-- The `lambda` case: inbound `triggers` from the policy, then outbound
`depends_on` from environment variables. -/
def processLambda (env : Env) (allResources : List Resource) (res : Resource) :
    List Relationship :=
  ((getLambdaTriggers env res).filterMap fun t =>
    (allResources.find? (fun r => r.id == t.sourceArn)).map fun tr =>
      ⟨tr.id, res.id, .triggers, .eventType t.eventType⟩)
  ++ (getLambdaDependencies env res).filterMap fun d =>
    (allResources.find? (fun r => r.id == d.targetArn)).map fun tr =>
      ⟨res.id, tr.id, .depends_on, .accessType d.accessType⟩

/-- `getApiGatewayIntegrations`, keyed by `apiGateway.id.split('/').pop()`. -/
def getApiGatewayIntegrations (env : Env) (api : Resource) :
    List ApiIntegration :=
  (env.apiIntegrations (lastSegment '/' api.id)).getD []

/-- The `apigateway` case: one `triggers` edge per integration whose URI
contains a known Lambda id. -/
def processApiGateway (env : Env) (allResources : List Resource)
    (res : Resource) : List Relationship :=
  (getApiGatewayIntegrations env res).filterMap fun integ =>
    (allResources.find? (fun r =>
        r.type == "lambda" && strContains integ.uri r.id)).map fun tr =>
      ⟨res.id, tr.id, .triggers, .methodPath integ.method integ.path⟩

/-- `getEventBridgeTargets`, keyed by the rule name. -/
def getEventBridgeTargets (env : Env) (eb : Resource) : List EBTarget :=
  (env.ebTargets eb.name).getD []

/-- The `eventbridge` case: one `triggers` edge per rule target whose ARN
contains a known resource id. -/
def processEventBridge (env : Env) (allResources : List Resource)
    (res : Resource) : List Relationship :=
  (getEventBridgeTargets env res).filterMap fun t =>
    (allResources.find? (fun r => strContains t.arn r.id)).map fun tr =>
      ⟨res.id, tr.id, .triggers, .targetRef t.id⟩

/-- The `ec2` case: the source re-wraps each resolver connection as
`{sourceId: resource.id, targetId: connection.targetId}` with
`metadata.protocol` / `metadata.port` read from fields a relationship object
does not carry (hence `undefined`, modelled as `none`). -/
def processEC2 (env : Env) (allResources : List Resource) (res : Resource) :
    List Relationship :=
  (getSecurityGroupConnections env res allResources).map fun c =>
    ⟨res.id, c.targetId, .connects_to, .protocolPort Option.none Option.none⟩

/-- Instances of an aurora cluster matched by cluster ARN or by the ARN's
trailing `:`-segment. -/
def auroraClusterInstances (allResources : List Resource) (res : Resource) :
    List Resource :=
  let clusterName := lastSegment ':' res.id
  allResources.filter fun r =>
    r.type == "aurora-instance" &&
    (r.clusterId == some res.id || r.clusterId == some clusterName)

/-- Security groups of an aurora cluster: own field, else tag fallback. -/
def auroraClusterSecurityGroups (res : Resource) : List String :=
  match res.securityGroups with
  | some l => l
  | none =>
    match tagSecurityGroups res with
    | some s => splitChar ',' s
    | none => []

/-- Re-target a connection discovered through an owned instance onto the
cluster id (both endpoint checks are against the original connection). -/
def retargetConnection (inst : Resource) (clusterId : String)
    (c : Relationship) : Relationship :=
  { c with
    sourceId := if c.sourceId == inst.id then clusterId else c.sourceId,
    targetId := if c.targetId == inst.id then clusterId else c.targetId }

/-- The `aurora` (cluster) case: `instance_of` edges for owned instances
(ARN- then name-matched), then security-group connections, synthesized from
owned instances when the cluster exposes no groups of its own. -/
def processAuroraCluster (env : Env) (allResources : List Resource)
    (res : Resource) : List Relationship :=
  let clusterInstances := auroraClusterInstances allResources res
  let instanceEdges : List Relationship := clusterInstances.map fun inst =>
    ⟨inst.id, res.id, .instance_of, .none⟩
  let nameBasedInstances := allResources.filter fun r =>
    r.type == "aurora-instance" && r.clusterId == some res.name
  let nameBasedEdges : List Relationship :=
    (nameBasedInstances.filter fun inst =>
      !(clusterInstances.any fun ci => ci.id == inst.id)).map fun inst =>
      ⟨inst.id, res.id, .instance_of, .none⟩
  let sgs := auroraClusterSecurityGroups res
  let sgEdges :=
    if !sgs.isEmpty then
      getSecurityGroupConnections env { res with securityGroups := some sgs }
        allResources
    else
      (clusterInstances.filter fun inst =>
        match inst.securityGroups with
        | some l => !l.isEmpty
        | none => false).flatMap fun inst =>
        (getSecurityGroupConnections env inst allResources).map
          (retargetConnection inst res.id)
  instanceEdges ++ nameBasedEdges ++ sgEdges

/-- The `aurora-instance` case: `instance_of` to the parent cluster matched by
exact cluster id or by an ARN ending in `:cluster:<clusterId>`, then
security-group connections.  An empty-string `clusterId` is falsy in the
source. -/
def processAuroraInstance (env : Env) (allResources : List Resource)
    (res : Resource) : List Relationship :=
  (match res.clusterId with
   | some cid =>
     if cid = "" then []
     else
       match allResources.find? (fun r =>
           r.type == "aurora" &&
           (r.id == cid || strEndsWith r.id (":cluster:" ++ cid))) with
       | some parent => [⟨res.id, parent.id, .instance_of, .none⟩]
       | none => []
   | none => [])
  ++ getSecurityGroupConnections env res allResources

/-- Security groups of an ECS service: network configuration, else tag
fallback (this order is specific to the `ecs` case of the source). -/
def ecsSecurityGroupIds (res : Resource) : List String :=
  match res.detailsNetworkSecurityGroups with
  | some l => l
  | none =>
    match tagSecurityGroups res with
    | some s => splitChar ',' s
    | none => []

/-- The `ecs` case: security-group connections through a copy of the resource
carrying the resolved groups. -/
def processECS (env : Env) (allResources : List Resource) (res : Resource) :
    List Relationship :=
  let sgs := ecsSecurityGroupIds res
  if sgs.isEmpty then []
  else
    getSecurityGroupConnections env { res with securityGroups := some sgs }
      allResources

/-- `getStepFunctionTargets`: definition parsing is unimplemented in the
source and always returns an empty list. -/
def getStepFunctionTargets (_sf : Resource) : List StepTarget := []

/-- The `stepfunctions` case (always empty, see `getStepFunctionTargets`). -/
def processStepFunctions (_env : Env) (allResources : List Resource)
    (res : Resource) : List Relationship :=
  (getStepFunctionTargets res).filterMap fun t =>
    (allResources.find? (fun r => strContains t.arn r.id)).map fun tr =>
      ⟨res.id, tr.id, .triggers, .stateType t.stateType⟩

/-- The `switch (resource.type)` dispatch of
`discoverResourceRelationships`. -/
def processResource (env : Env) (allResources : List Resource)
    (res : Resource) : List Relationship :=
  if res.type = "alb" ∨ res.type = "nlb" then
    processLoadBalancer env allResources res
  else if res.type = "lambda" then processLambda env allResources res
  else if res.type = "apigateway" then processApiGateway env allResources res
  else if res.type = "eventbridge" then processEventBridge env allResources res
  else if res.type = "ec2" then processEC2 env allResources res
  else if res.type = "aurora" then processAuroraCluster env allResources res
  else if res.type = "aurora-instance" then
    processAuroraInstance env allResources res
  else if res.type = "ecs" then processECS env allResources res
  else if res.type = "stepfunctions" then
    processStepFunctions env allResources res
  else []

/-! ### Relationship assembler (concatenation and deduplication) -/

/-- The string form of a relationship type used in the dedup key. -/
def relationshipTypeKey : RelationshipType → String
  | .routes_to => "routes_to"
  | .depends_on => "depends_on"
  | .triggers => "triggers"
  | .connects_to => "connects_to"
  | .part_of => "part_of"
  | .instance_of => "instance_of"

/-- The dedup key `sourceId|targetId|type` of the assembler. -/
def dedupKey (r : Relationship) : String :=
  r.sourceId ++ "|" ++ r.targetId ++ "|" ++ relationshipTypeKey r.type

/-- The dedup loop of `discoverResourceRelationships`: keep the first
occurrence of each key. -/
def dedupRelationships : List String → List Relationship → List Relationship
  | _, [] => []
  | seen, r :: rest =>
    if dedupKey r ∈ seen then dedupRelationships seen rest
    else r :: dedupRelationships (dedupKey r :: seen) rest

/-- All candidate edges before deduplication: the discovery loop runs over
`focusResources || allResources` while every extractor matches against the
full `allResources`. -/
def rawRelationships (env : Env) (allResources : List Resource)
    (focusResources : Option (List Resource)) : List Relationship :=
  (focusResources.getD allResources).flatMap (processResource env allResources)

/-- `discoverResourceRelationships(allResources, focusResources)`. -/
def discoverResourceRelationships (env : Env) (allResources : List Resource)
    (focusResources : Option (List Resource)) : List Relationship :=
  dedupRelationships [] (rawRelationships env allResources focusResources)

/-! ### Dependency graph renderer (`ResourceDependencyGraph.tsx`) -/

/-- A rendered link with both endpoints resolved to nodes. -/
structure RenderLink where
  source : Resource
  target : Resource
  relationship : Relationship
deriving DecidableEq

/-- Outcome of the render computation: an explicit empty-state message or a
graph of nodes and resolved links. -/
inductive RenderOutcome where
  | message (text : String)
  | graph (nodes : List Resource) (links : List RenderLink)
deriving DecidableEq

/-- Pull the external endpoint `rid` of a retained edge into the node list
(deduplicated by id against the list built so far; a missing external
descriptor adds nothing). -/
def pushExternal (externalResources gr : List Resource) (rid : String) :
    List Resource :=
  match externalResources.find? (fun r => r.id == rid) with
  | some ext => if gr.any (fun r => r.id == ext.id) then gr else gr ++ [ext]
  | none => gr

/-- One step of the relationship filter: keeps edges with at least one
endpoint in the current view and, when external resources are shown, pulls
the external endpoint into the node list. -/
def renderStep (resourceIds : List String) (externalResources : List Resource)
    (showExternalResources : Bool) (acc : List Resource × List Relationship)
    (rel : Relationship) : List Resource × List Relationship :=
  let sourceInApp := resourceIds.contains rel.sourceId
  let targetInApp := resourceIds.contains rel.targetId
  if showExternalResources && (!sourceInApp && targetInApp) then
    (pushExternal externalResources acc.1 rel.sourceId, acc.2 ++ [rel])
  else if showExternalResources && (sourceInApp && !targetInApp) then
    (pushExternal externalResources acc.1 rel.targetId, acc.2 ++ [rel])
  else if sourceInApp && targetInApp then (acc.1, acc.2 ++ [rel])
  else acc

/-- The filter pass of the renderer: returns the graph resources (focus plus
pulled-in external nodes) and the retained relationships. -/
def relevantPass (resources : List Resource) (relationships : List Relationship)
    (externalResources : List Resource) (showExternalResources : Bool) :
    List Resource × List Relationship :=
  relationships.foldl
    (renderStep (resources.map (fun r => r.id)) externalResources
      showExternalResources)
    (resources, [])

/-- The render computation: empty-state messages for an empty node or edge
set, otherwise the node list and the links whose endpoints both resolve to a
node (unresolvable links are dropped). -/
def computeGraph (resources : List Resource) (relationships : List Relationship)
    (externalResources : List Resource) (showExternalResources : Bool) :
    RenderOutcome :=
  let p := relevantPass resources relationships externalResources
    showExternalResources
  if p.1.isEmpty then .message "No resources to display"
  else if p.2.isEmpty then .message "No relationships found between resources"
  else
    .graph p.1 (p.2.filterMap fun rel =>
      match p.1.find? (fun n => n.id == rel.sourceId),
            p.1.find? (fun n => n.id == rel.targetId) with
      | some s, some t => some ⟨s, t, rel⟩
      | _, _ => Option.none)

/-! ### Predicates used in the claim statements -/

/-- Both endpoints of `e` resolve within `allResources` (or equal `rid`, the
id of the resource being processed), and `e` touches `rid`. -/
def EdgeScoped (allResources : List Resource) (rid : String)
    (e : Relationship) : Prop :=
  (e.sourceId = rid ∨ ∃ t ∈ allResources, e.sourceId = t.id) ∧
  (e.targetId = rid ∨ ∃ t ∈ allResources, e.targetId = t.id) ∧
  (e.sourceId = rid ∨ e.targetId = rid)

/-- Every remote lookup the extractors could perform for resource `r`
fails (models a thrown error or missing remote data at each call site). -/
abbrev remoteLookupsFail (env : Env) (r : Resource) : Prop :=
  env.lbTargets r.id = Option.none ∧
  env.lambdaPolicy r.name = Option.none ∧
  env.lambdaEnvVars r.name = Option.none ∧
  env.apiIntegrations (lastSegment '/' r.id) = Option.none ∧
  env.ebTargets r.name = Option.none ∧
  env.describeSecurityGroups (resolveSecurityGroupIds r) = Option.none ∧
  env.describeSecurityGroups (ecsSecurityGroupIds r) = Option.none

/-- Resource types whose extractor emits edges only from remote data, and
exclusion of the hardcoded fixture service whose edges need no remote
call. -/
abbrev remoteOnlyType (r : Resource) : Prop :=
  (r.type = "alb" ∨ r.type = "nlb" ∨ r.type = "lambda" ∨
   r.type = "apigateway" ∨ r.type = "eventbridge" ∨ r.type = "ec2" ∨
   r.type = "ecs" ∨ r.type = "stepfunctions") ∧
  ¬(r.name = "service-test-2" ∧ r.application = "test-app2")

/-! ### Concrete fixtures used by witnesses and counterexamples -/

/-- The environment in which every remote lookup fails. -/
def emptyEnv : Env :=
  ⟨fun _ => Option.none, fun _ => Option.none, fun _ => Option.none,
   fun _ => Option.none, fun _ => Option.none, fun _ => Option.none⟩

/-- A load balancer outside the focus set. -/
def lbC1 : Resource :=
  ⟨"lb1", "lb-one", "alb", "app1", "r1", [], Option.none, Option.none,
   Option.none, Option.none⟩

/-- An ECS service hosted on cluster `cl`, used as a focus resource. -/
def svcC1 : Resource :=
  ⟨"svc1", "svc-one", "ecs", "app1", "r1", [], Option.none, Option.none,
   some "cl", Option.none⟩

/-- Load-balancer targets for `lbC1`: one target on cluster `cl`. -/
def lbTargetsC1 : String → Option (List LBTarget) := fun i =>
  if i = "lb1" then some [⟨"x", some 80, some "HTTP", some "cl"⟩]
  else Option.none

/-- Environment giving `lbC1` a target that resolves to `svcC1`. -/
def envC1 : Env := { emptyEnv with lbTargets := lbTargetsC1 }

/-- A security-group rule referencing group `sg-ref` on port 443. -/
def ruleC3 : SGRule := ⟨some "tcp", some 443, some 443, [⟨"sg-ref"⟩]⟩

/-- The resource owning the rule under test. -/
def resC3 : Resource :=
  ⟨"a1", "node-a", "ec2", "app1", "r1", [], some ["sg-a"], Option.none,
   Option.none, Option.none⟩

/-- A resource holding the referenced group `sg-ref`. -/
def tgtC3 : Resource :=
  ⟨"b1", "node-b", "ecs", "app1", "r1", [], some ["sg-ref"], Option.none,
   Option.none, Option.none⟩

/-- An EC2 instance with a tag-declared security group `sg-1`. -/
def ec2C4 : Resource :=
  ⟨"e1", "vm-one", "ec2", "app1", "r1", [("SecurityGroups", "sg-1")],
   Option.none, Option.none, Option.none, Option.none⟩

/-- A resource holding the group `sg-2` referenced by the rule of `sg-1`. -/
def otherC4 : Resource :=
  ⟨"r2", "other", "ecs", "app1", "r1", [], some ["sg-2"], Option.none,
   Option.none, Option.none⟩

/-- Rule set of group `sg-1`: one inbound rule referencing `sg-2`. -/
def describeC4 : List String → Option (List SecurityGroup) := fun ids =>
  if ids = ["sg-1"] then
    some [⟨"sg-1", [⟨some "tcp", some 80, some 80, [⟨"sg-2"⟩]⟩], []⟩]
  else Option.none

/-- Environment serving the rule set of `sg-1`. -/
def envC4 : Env := { emptyEnv with describeSecurityGroups := describeC4 }

/-- A Lambda function resource. -/
def lambdaC5 : Resource :=
  ⟨"l5", "fn-5", "lambda", "app1", "r1", [], Option.none, Option.none,
   Option.none, Option.none⟩

/-- An API Gateway resource whose id appears in the Lambda policy. -/
def apiC5 : Resource :=
  ⟨"api1", "api-five", "apigateway", "app1", "r1", [], Option.none,
   Option.none, Option.none, Option.none⟩

/-- Resource policy for `fn-5`: one statement with principal and source
ARN. -/
def lambdaPolicyC5 : String → Option (List PolicyStatement) := fun n =>
  if n = "fn-5" then some [⟨some "apigateway.amazonaws.com", some "api1"⟩]
  else Option.none

/-- Environment serving the policy of `fn-5`. -/
def envC5 : Env := { emptyEnv with lambdaPolicy := lambdaPolicyC5 }

/-- The cluster of the specification example (id `c1`). -/
def clusterA : Resource :=
  ⟨"c1", "ClusterA", "aurora", "app1", "r1", [], Option.none, Option.none,
   Option.none, Option.none⟩

/-- The instance of the specification example (`clusterId = c1`). -/
def instanceA : Resource :=
  ⟨"i1", "InstanceA", "aurora-instance", "app1", "r1", [], Option.none,
   some "c1", Option.none, Option.none⟩

/-- A cluster whose display name (`mycluster`) differs from its id. -/
def clusterN : Resource :=
  ⟨"cid-1", "mycluster", "aurora", "app1", "r1", [], Option.none,
   Option.none, Option.none, Option.none⟩

/-- An instance whose `clusterId` equals the cluster display name only. -/
def instN : Resource :=
  ⟨"i9", "inst-nine", "aurora-instance", "app1", "r1", [], Option.none,
   some "mycluster", Option.none, Option.none⟩

/-- A Lambda whose policy lookup fails while its configuration lookup
succeeds. -/
def lambdaC7 : Resource :=
  ⟨"l1", "fn-1", "lambda", "app1", "r1", [], Option.none, Option.none,
   Option.none, Option.none⟩

/-- A resource whose id matches the ARN found in the environment
variables of `fn-1`. -/
def dbC7 : Resource :=
  ⟨"arn:aws:db1", "db-one", "aurora", "app1", "r1", [], Option.none,
   Option.none, Option.none, Option.none⟩

/-- Environment variables of `fn-1` holding one embedded ARN. -/
def lambdaEnvVarsC7 : String → Option (List (String × String)) := fun n =>
  if n = "fn-1" then some [("DB_ARN", "arn:aws:db1")] else Option.none

/-- Environment in which the policy of `fn-1` is unavailable but its
configuration is. -/
def envC7 : Env := { emptyEnv with lambdaEnvVars := lambdaEnvVarsC7 }

/-- A single resource for the empty-relationship render state. -/
def resC8 : Resource :=
  ⟨"n0", "node-zero", "ecs", "app1", "r1", [], Option.none, Option.none,
   Option.none, Option.none⟩

/-- First render node. -/
def resR1 : Resource :=
  ⟨"n1", "node-one", "ecs", "app1", "r1", [], Option.none, Option.none,
   Option.none, Option.none⟩

/-- Second render node. -/
def resR2 : Resource :=
  ⟨"n2", "node-two", "aurora", "app1", "r1", [], Option.none, Option.none,
   Option.none, Option.none⟩

/-- A resolvable relationship between the two render nodes. -/
def relR12 : Relationship := ⟨"n1", "n2", .connects_to, .none⟩

/-- A relationship whose target id resolves to no node. -/
def relRbad : Relationship := ⟨"n1", "zz", .triggers, .none⟩

/-- The fixture ECS service holding the mock security group. -/
def svcC10 : Resource :=
  ⟨"ecs-arn-1", "service-test-2", "ecs", "test-app2", "us-east-1", [],
   some ["sg-0123456789abcdef0"], Option.none, Option.none, Option.none⟩

/-- The fixture database instance. -/
def dbC10 : Resource :=
  ⟨"db-arn-1", "database-2-instance-1", "aurora-instance", "test-app2",
   "us-east-1", [], some ["sg-9"], Option.none, Option.none, Option.none⟩

/-! ### Lemmas about the deduplication pass -/

theorem mem_of_mem_dedup {seen : List String} {l : List Relationship}
    {e : Relationship} (h : e ∈ dedupRelationships seen l) : e ∈ l := by
  induction l generalizing seen with
  | nil => simp [dedupRelationships] at h
  | cons r rest ih =>
    by_cases hk : dedupKey r ∈ seen
    · rw [show dedupRelationships seen (r :: rest) =
          dedupRelationships seen rest by simp [dedupRelationships, hk]] at h
      exact List.mem_cons_of_mem _ (ih h)
    · rw [show dedupRelationships seen (r :: rest) =
          r :: dedupRelationships (dedupKey r :: seen) rest by
            simp [dedupRelationships, hk]] at h
      rcases List.mem_cons.mp h with rfl | h
      · exact List.mem_cons_self _ _
      · exact List.mem_cons_of_mem _ (ih h)

theorem dedupKey_not_mem_seen {seen : List String} {l : List Relationship}
    {e : Relationship} (h : e ∈ dedupRelationships seen l) :
    dedupKey e ∉ seen := by
  induction l generalizing seen with
  | nil => simp [dedupRelationships] at h
  | cons r rest ih =>
    by_cases hk : dedupKey r ∈ seen
    · rw [show dedupRelationships seen (r :: rest) =
          dedupRelationships seen rest by simp [dedupRelationships, hk]] at h
      exact ih h
    · rw [show dedupRelationships seen (r :: rest) =
          r :: dedupRelationships (dedupKey r :: seen) rest by
            simp [dedupRelationships, hk]] at h
      rcases List.mem_cons.mp h with rfl | h
      · exact hk
      · intro hc
        exact ih h (List.mem_cons_of_mem _ hc)

theorem dedup_pairwise (seen : List String) (l : List Relationship) :
    (dedupRelationships seen l).Pairwise
      (fun a b => dedupKey a ≠ dedupKey b) := by
  induction l generalizing seen with
  | nil => simp [dedupRelationships]
  | cons r rest ih =>
    by_cases hk : dedupKey r ∈ seen
    · rw [show dedupRelationships seen (r :: rest) =
          dedupRelationships seen rest by simp [dedupRelationships, hk]]
      exact ih seen
    · rw [show dedupRelationships seen (r :: rest) =
          r :: dedupRelationships (dedupKey r :: seen) rest by
            simp [dedupRelationships, hk]]
      refine List.Pairwise.cons ?_ (ih _)
      intro x hx hEq
      have hnot := dedupKey_not_mem_seen hx
      exact hnot (by simp [hEq])

theorem exists_mem_dedup {l : List Relationship} {e : Relationship}
    {seen : List String} (he : e ∈ l) (hs : dedupKey e ∉ seen) :
    ∃ x ∈ dedupRelationships seen l, dedupKey x = dedupKey e := by
  induction l generalizing seen with
  | nil => cases he
  | cons r rest ih =>
    by_cases hk : dedupKey r ∈ seen
    · rw [show dedupRelationships seen (r :: rest) =
          dedupRelationships seen rest by simp [dedupRelationships, hk]]
      rcases List.mem_cons.mp he with rfl | he2
      · exact absurd hk hs
      · exact ih he2 hs
    · rw [show dedupRelationships seen (r :: rest) =
          r :: dedupRelationships (dedupKey r :: seen) rest by
            simp [dedupRelationships, hk]]
      by_cases hke : dedupKey e = dedupKey r
      · exact ⟨r, List.mem_cons_self _ _, hke.symm⟩
      · rcases List.mem_cons.mp he with rfl | he2
        · exact absurd rfl hke
        · have hs2 : dedupKey e ∉ dedupKey r :: seen := by
            simp [hke, hs]
          obtain ⟨x, hx, hxe⟩ := ih he2 hs2
          exact ⟨x, List.mem_cons_of_mem _ hx, hxe⟩

theorem mem_dedup_of_first (l1 l2 : List Relationship) (e : Relationship) :
    ∀ seen, dedupKey e ∉ seen → (∀ x ∈ l1, dedupKey x ≠ dedupKey e) →
    e ∈ dedupRelationships seen (l1 ++ e :: l2) := by
  induction l1 with
  | nil =>
    intro seen hs _
    rw [List.nil_append,
      show dedupRelationships seen (e :: l2) =
        e :: dedupRelationships (dedupKey e :: seen) l2 by
          simp [dedupRelationships, hs]]
    exact List.mem_cons_self _ _
  | cons x l1 ih =>
    intro seen hs hall
    rw [List.cons_append]
    by_cases hk : dedupKey x ∈ seen
    · rw [show dedupRelationships seen (x :: (l1 ++ e :: l2)) =
          dedupRelationships seen (l1 ++ e :: l2) by
            simp [dedupRelationships, hk]]
      exact ih seen hs fun y hy => hall y (List.mem_cons_of_mem _ hy)
    · rw [show dedupRelationships seen (x :: (l1 ++ e :: l2)) =
          x :: dedupRelationships (dedupKey x :: seen) (l1 ++ e :: l2) by
            simp [dedupRelationships, hk]]
      refine List.mem_cons_of_mem _ (ih _ ?_ ?_)
      · have hne : dedupKey e ≠ dedupKey x :=
          fun hEq => hall x (List.mem_cons_self _ _) hEq.symm
        simp [hne, hs]
      · exact fun y hy => hall y (List.mem_cons_of_mem _ hy)

theorem first_of_mem_dedup {seen : List String} {l : List Relationship}
    {e : Relationship} (h : e ∈ dedupRelationships seen l) :
    ∃ l1 l2, l = l1 ++ e :: l2 ∧ ∀ x ∈ l1, dedupKey x ≠ dedupKey e := by
  induction l generalizing seen with
  | nil => simp [dedupRelationships] at h
  | cons r rest ih =>
    by_cases hk : dedupKey r ∈ seen
    · rw [show dedupRelationships seen (r :: rest) =
          dedupRelationships seen rest by simp [dedupRelationships, hk]] at h
      obtain ⟨l1, l2, hsplit, hall⟩ := ih h
      have hne : dedupKey r ≠ dedupKey e := by
        intro hEq
        exact dedupKey_not_mem_seen h (hEq ▸ hk)
      refine ⟨r :: l1, l2, by rw [hsplit, List.cons_append], ?_⟩
      intro x hx
      rcases List.mem_cons.mp hx with rfl | hx2
      · exact hne
      · exact hall x hx2
    · rw [show dedupRelationships seen (r :: rest) =
          r :: dedupRelationships (dedupKey r :: seen) rest by
            simp [dedupRelationships, hk]] at h
      rcases List.mem_cons.mp h with rfl | h2
      · exact ⟨[], rest, rfl, by simp⟩
      · obtain ⟨l1, l2, hsplit, hall⟩ := ih h2
        have hne : dedupKey r ≠ dedupKey e := by
          intro hEq
          have := dedupKey_not_mem_seen h2
          exact this (by simp [hEq])
        refine ⟨r :: l1, l2, by rw [hsplit, List.cons_append], ?_⟩
        intro x hx
        rcases List.mem_cons.mp hx with rfl | hx2
        · exact hne
        · exact hall x hx2

/-! ### Endpoint lemmas for the extractors -/

theorem processSecurityGroupRule_scoped {rule : SGRule} {res : Resource}
    {all : List Resource} {gid : String} {dir : Direction} {e : Relationship}
    (h : e ∈ processSecurityGroupRule rule res all gid dir) :
    EdgeScoped all res.id e := by
  simp only [processSecurityGroupRule] at h
  rw [List.mem_append] at h
  rcases h with h | h
  · split at h
    · split at h
      case isTrue.h_1 ecs heq =>
        rw [List.mem_singleton] at h
        subst h
        exact ⟨Or.inr ⟨ecs, List.mem_of_find?_eq_some heq, rfl⟩,
          Or.inl rfl, Or.inr rfl⟩
      case isTrue.h_2 => simp at h
    · simp at h
  · rw [List.mem_flatMap] at h
    obtain ⟨sgRef, _hsg, h⟩ := h
    rw [List.mem_map] at h
    obtain ⟨t, ht, rfl⟩ := h
    have htAll : t ∈ all :=
      List.mem_of_mem_filter (List.mem_of_mem_filter ht)
    cases dir with
    | inbound =>
      exact ⟨Or.inr ⟨t, htAll, by simp⟩, Or.inl (by simp), Or.inr (by simp)⟩
    | outbound =>
      exact ⟨Or.inl (by simp), Or.inr ⟨t, htAll, by simp⟩, Or.inl (by simp)⟩

theorem getSecurityGroupConnections_scoped {env : Env} {res : Resource}
    {all : List Resource} {e : Relationship}
    (h : e ∈ getSecurityGroupConnections env res all) :
    EdgeScoped all res.id e := by
  simp only [getSecurityGroupConnections] at h
  split at h
  · simp at h
  · split at h
    · split at h
      · simp at h
      · split at h
        · split at h
          case h_1 db heq =>
            rw [List.mem_singleton] at h
            subst h
            exact ⟨Or.inl rfl,
              Or.inr ⟨db, List.mem_of_find?_eq_some heq, rfl⟩, Or.inl rfl⟩
          case h_2 => simp at h
        · simp at h
    · split at h
      case h_1 => simp at h
      case h_2 sgs _ =>
        rw [List.mem_flatMap] at h
        obtain ⟨sg, _, h⟩ := h
        rw [List.mem_append] at h
        rcases h with h | h <;>
          · rw [List.mem_flatMap] at h
            obtain ⟨rule, _, h⟩ := h
            exact processSecurityGroupRule_scoped h

theorem retarget_scoped {all : List Resource} {inst : Resource}
    {c : Relationship} {rid : String}
    (hc : EdgeScoped all inst.id c) :
    EdgeScoped all rid (retargetConnection inst rid c) := by
  obtain ⟨hs, ht, htouch⟩ := hc
  refine ⟨?_, ?_, ?_⟩
  · by_cases hq : c.sourceId = inst.id
    · exact Or.inl (by simp [retargetConnection, hq])
    · rcases hs with h | ⟨t, htAll, h⟩
      · exact absurd h hq
      · refine Or.inr ⟨t, htAll, ?_⟩
        show (if c.sourceId == inst.id then rid else c.sourceId) = t.id
        cases h1 : c.sourceId == inst.id with
        | true => exact absurd (eq_of_beq h1) hq
        | false => simpa using h
  · by_cases hq : c.targetId = inst.id
    · exact Or.inl (by simp [retargetConnection, hq])
    · rcases ht with h | ⟨t, htAll, h⟩
      · exact absurd h hq
      · refine Or.inr ⟨t, htAll, ?_⟩
        show (if c.targetId == inst.id then rid else c.targetId) = t.id
        cases h1 : c.targetId == inst.id with
        | true => exact absurd (eq_of_beq h1) hq
        | false => simpa using h
  · rcases htouch with h | h
    · exact Or.inl (by simp [retargetConnection, h])
    · exact Or.inr (by simp [retargetConnection, h])

theorem processLoadBalancer_scoped {env : Env} {all : List Resource}
    {res : Resource} {e : Relationship}
    (h : e ∈ processLoadBalancer env all res) : EdgeScoped all res.id e := by
  simp only [processLoadBalancer, List.mem_filterMap] at h
  obtain ⟨t, _, h⟩ := h
  rw [Option.map_eq_some'] at h
  obtain ⟨tr, hfind, rfl⟩ := h
  exact ⟨Or.inl rfl, Or.inr ⟨tr, List.mem_of_find?_eq_some hfind, rfl⟩,
    Or.inl rfl⟩

theorem processLambda_scoped {env : Env} {all : List Resource}
    {res : Resource} {e : Relationship}
    (h : e ∈ processLambda env all res) : EdgeScoped all res.id e := by
  simp only [processLambda, List.mem_append, List.mem_filterMap] at h
  rcases h with ⟨t, _, h⟩ | ⟨d, _, h⟩ <;> rw [Option.map_eq_some'] at h
  · obtain ⟨tr, hfind, rfl⟩ := h
    exact ⟨Or.inr ⟨tr, List.mem_of_find?_eq_some hfind, rfl⟩, Or.inl rfl,
      Or.inr rfl⟩
  · obtain ⟨tr, hfind, rfl⟩ := h
    exact ⟨Or.inl rfl, Or.inr ⟨tr, List.mem_of_find?_eq_some hfind, rfl⟩,
      Or.inl rfl⟩

theorem processApiGateway_scoped {env : Env} {all : List Resource}
    {res : Resource} {e : Relationship}
    (h : e ∈ processApiGateway env all res) : EdgeScoped all res.id e := by
  simp only [processApiGateway, List.mem_filterMap] at h
  obtain ⟨t, _, h⟩ := h
  rw [Option.map_eq_some'] at h
  obtain ⟨tr, hfind, rfl⟩ := h
  exact ⟨Or.inl rfl, Or.inr ⟨tr, List.mem_of_find?_eq_some hfind, rfl⟩,
    Or.inl rfl⟩

theorem processEventBridge_scoped {env : Env} {all : List Resource}
    {res : Resource} {e : Relationship}
    (h : e ∈ processEventBridge env all res) : EdgeScoped all res.id e := by
  simp only [processEventBridge, List.mem_filterMap] at h
  obtain ⟨t, _, h⟩ := h
  rw [Option.map_eq_some'] at h
  obtain ⟨tr, hfind, rfl⟩ := h
  exact ⟨Or.inl rfl, Or.inr ⟨tr, List.mem_of_find?_eq_some hfind, rfl⟩,
    Or.inl rfl⟩

theorem processEC2_scoped {env : Env} {all : List Resource} {res : Resource}
    {e : Relationship} (h : e ∈ processEC2 env all res) :
    EdgeScoped all res.id e := by
  simp only [processEC2, List.mem_map] at h
  obtain ⟨c, hc, rfl⟩ := h
  have hsc := getSecurityGroupConnections_scoped hc
  exact ⟨Or.inl rfl, hsc.2.1, Or.inl rfl⟩

theorem processECS_scoped {env : Env} {all : List Resource} {res : Resource}
    {e : Relationship} (h : e ∈ processECS env all res) :
    EdgeScoped all res.id e := by
  simp only [processECS] at h
  split at h
  · simp at h
  · exact @getSecurityGroupConnections_scoped env
      { res with securityGroups := some (ecsSecurityGroupIds res) } all e h

theorem processStepFunctions_scoped {env : Env} {all : List Resource}
    {res : Resource} {e : Relationship}
    (h : e ∈ processStepFunctions env all res) : EdgeScoped all res.id e := by
  simp [processStepFunctions, getStepFunctionTargets] at h

theorem processAuroraInstance_scoped {env : Env} {all : List Resource}
    {res : Resource} {e : Relationship}
    (h : e ∈ processAuroraInstance env all res) : EdgeScoped all res.id e := by
  simp only [processAuroraInstance, List.mem_append] at h
  rcases h with h | h
  · split at h
    case h_1 cid _ =>
      split at h
      · simp at h
      · split at h
        case isFalse.h_1 parent hfind =>
          rw [List.mem_singleton] at h
          subst h
          exact ⟨Or.inl rfl,
            Or.inr ⟨parent, List.mem_of_find?_eq_some hfind, rfl⟩, Or.inl rfl⟩
        case isFalse.h_2 => simp at h
    case h_2 => simp at h
  · exact getSecurityGroupConnections_scoped h

theorem processAuroraCluster_scoped {env : Env} {all : List Resource}
    {res : Resource} {e : Relationship}
    (h : e ∈ processAuroraCluster env all res) : EdgeScoped all res.id e := by
  simp only [processAuroraCluster, List.mem_append] at h
  rcases h with (h | h) | h
  · rw [List.mem_map] at h
    obtain ⟨inst, hinst, rfl⟩ := h
    have : inst ∈ all := List.mem_of_mem_filter hinst
    exact ⟨Or.inr ⟨inst, this, rfl⟩, Or.inl rfl, Or.inr rfl⟩
  · rw [List.mem_map] at h
    obtain ⟨inst, hinst, rfl⟩ := h
    have : inst ∈ all :=
      List.mem_of_mem_filter (List.mem_of_mem_filter hinst)
    exact ⟨Or.inr ⟨inst, this, rfl⟩, Or.inl rfl, Or.inr rfl⟩
  · split at h
    · exact @getSecurityGroupConnections_scoped env
        { res with securityGroups := some (auroraClusterSecurityGroups res) }
        all e h
    · rw [List.mem_flatMap] at h
      obtain ⟨inst, _, h⟩ := h
      rw [List.mem_map] at h
      obtain ⟨c, hc, rfl⟩ := h
      exact retarget_scoped (getSecurityGroupConnections_scoped hc)

theorem processResource_scoped {env : Env} {all : List Resource}
    {res : Resource} {e : Relationship}
    (h : e ∈ processResource env all res) : EdgeScoped all res.id e := by
  simp only [processResource] at h
  split_ifs at h
  · exact processLoadBalancer_scoped h
  · exact processLambda_scoped h
  · exact processApiGateway_scoped h
  · exact processEventBridge_scoped h
  · exact processEC2_scoped h
  · exact processAuroraCluster_scoped h
  · exact processAuroraInstance_scoped h
  · exact processECS_scoped h
  · exact processStepFunctions_scoped h
  · simp at h

/-! ### Lemmas about the renderer filter pass -/

theorem pushExternal_ne_nil {ext gr : List Resource} {rid : String}
    (h : gr ≠ []) : pushExternal ext gr rid ≠ [] := by
  unfold pushExternal
  split
  · split
    · exact h
    · simp
  · exact h

theorem renderStep_fst_ne_nil {ids : List String} {ext : List Resource}
    {se : Bool} {acc : List Resource × List Relationship} {rel : Relationship}
    (h : acc.1 ≠ []) : (renderStep ids ext se acc rel).1 ≠ [] := by
  simp only [renderStep]
  split_ifs <;> first | exact pushExternal_ne_nil h | exact h

theorem foldl_renderStep_fst_ne_nil {ids : List String} {ext : List Resource}
    {se : Bool} :
    ∀ (rels : List Relationship) (acc : List Resource × List Relationship),
      acc.1 ≠ [] → (List.foldl (renderStep ids ext se) acc rels).1 ≠ [] := by
  intro rels
  induction rels with
  | nil => exact fun acc h => h
  | cons r t ih =>
    intro acc h
    rw [List.foldl_cons]
    exact ih _ (renderStep_fst_ne_nil h)

theorem relevantPass_fst_ne_nil {resources : List Resource}
    {rels : List Relationship} {ext : List Resource} {se : Bool}
    (h : resources ≠ []) : (relevantPass resources rels ext se).1 ≠ [] :=
  foldl_renderStep_fst_ne_nil rels (resources, []) h

theorem renderStep_nil_ids {ext : List Resource} {se : Bool}
    {rel : Relationship} :
    renderStep [] ext se (([] : List Resource), ([] : List Relationship)) rel
      = ([], []) := by
  simp [renderStep]

theorem relevantPass_nil {rels : List Relationship} {ext : List Resource}
    {se : Bool} : relevantPass [] rels ext se = ([], []) := by
  unfold relevantPass
  induction rels with
  | nil => rfl
  | cons r t ih =>
    rw [List.map_nil, List.foldl_cons, renderStep_nil_ids]
    simpa using ih

/-! ### Lemmas for extractor-failure isolation -/

theorem flatMap_eq_flatMap_filter {α β : Type} (l : List α) (f : α → List β)
    (p : α → Bool) (h : ∀ x ∈ l, p x = false → f x = []) :
    l.flatMap f = (l.filter p).flatMap f := by
  induction l with
  | nil => rfl
  | cons a l ih =>
    have ih2 := ih fun x hx => h x (List.mem_cons_of_mem _ hx)
    cases hp : p a with
    | true => simp [List.filter_cons, hp, ih2]
    | false =>
      simp [List.filter_cons, hp, h a (List.mem_cons_self _ _) hp, ih2]

theorem resolve_of_update {res : Resource} {l : List String} :
    resolveSecurityGroupIds { res with securityGroups := some l } = l := rfl

theorem getSGC_eq_nil_of_fail {env : Env} {res : Resource}
    {all : List Resource}
    (hdesc : env.describeSecurityGroups (resolveSecurityGroupIds res) =
      Option.none)
    (hfix : ¬(res.name = "service-test-2" ∧ res.application = "test-app2")) :
    getSecurityGroupConnections env res all = [] := by
  simp only [getSecurityGroupConnections]
  split
  · rfl
  · split
    · split
      · rfl
      · split
        case isTrue hsvc =>
          rw [Bool.and_eq_true, beq_iff_eq, beq_iff_eq] at hsvc
          exact absurd hsvc hfix
        case isFalse => rfl
    · rw [hdesc]

theorem processResource_eq_nil_of_fail {env : Env} {S : List Resource}
    {r : Resource} (hfail : remoteLookupsFail env r)
    (honly : remoteOnlyType r) : processResource env S r = [] := by
  obtain ⟨hlb, hpol, hvars, hapi, heb, hdesc1, hdesc2⟩ := hfail
  obtain ⟨htype, hfix⟩ := honly
  rcases htype with h | h | h | h | h | h | h | h
  · simp [processResource, h, processLoadBalancer, getLoadBalancerTargets, hlb]
  · simp [processResource, h, processLoadBalancer, getLoadBalancerTargets, hlb]
  · simp [processResource, h, processLambda, getLambdaTriggers,
      getLambdaDependencies, hpol, hvars]
  · simp [processResource, h, processApiGateway, getApiGatewayIntegrations,
      hapi]
  · simp [processResource, h, processEventBridge, getEventBridgeTargets, heb]
  · simp [processResource, h, processEC2,
      getSGC_eq_nil_of_fail hdesc1 hfix]
  · have hnil : getSecurityGroupConnections env
        { r with securityGroups := some (ecsSecurityGroupIds r) } S = [] :=
      getSGC_eq_nil_of_fail (by rw [resolve_of_update]; exact hdesc2) hfix
    have hsel : processResource env S r = processECS env S r := by
      simp [processResource, h]
    rw [hsel]
    simp only [processECS]
    split
    · rfl
    · exact hnil
  · simp [processResource, h, processStepFunctions, getStepFunctionTargets]

/-! ### Claim theorems -/

/-- **C1 (amended)**: with a focus subset `F ⊆ S`, every edge returned by
`discoverResourceRelationships S F` has at least one endpoint in `F` and its
`(sourceId, targetId, type)` dedup key also occurs in the unfocused result
`discoverResourceRelationships S none` (the cross-reference search space is
all of `S`).  The original claim's converse inclusion — that every unfocused
edge touching `F` with far endpoint in `S \ F` is returned — fails, because
extractors run only on focus entry points (see the counterexample). -/
theorem discovery_focus_scoping (env : Env) (S F : List Resource)
    (hsub : ∀ r ∈ F, r ∈ S) :
    ∀ e ∈ discoverResourceRelationships env S (some F),
      (∃ x ∈ discoverResourceRelationships env S Option.none,
        dedupKey x = dedupKey e) ∧
      (e.sourceId ∈ F.map (fun r => r.id) ∨
       e.targetId ∈ F.map (fun r => r.id)) := by
  intro e he
  have hraw : e ∈ rawRelationships env S (some F) := mem_of_mem_dedup he
  simp only [rawRelationships, Option.getD_some] at hraw
  rw [List.mem_flatMap] at hraw
  obtain ⟨r, hrF, he2⟩ := hraw
  have hscoped := processResource_scoped he2
  constructor
  · have hrawAll : e ∈ rawRelationships env S Option.none := by
      simp only [rawRelationships, Option.getD_none]
      exact List.mem_flatMap.mpr ⟨r, hsub r hrF, he2⟩
    exact exists_mem_dedup hrawAll (by simp)
  · rcases hscoped.2.2 with h | h
    · exact Or.inl (List.mem_map.mpr ⟨r, hrF, h.symm⟩)
    · exact Or.inr (List.mem_map.mpr ⟨r, hrF, h.symm⟩)

/-- **C1 (counterexample)**: a `routes_to` edge from a non-focus load
balancer to the focus ECS service is present in the unfocused discovery but
absent (the focused result is empty) when discovery is scoped to the
service, refuting the claim that every full-set edge touching the focus set
is returned. -/
theorem discovery_focus_scoping_counterexample :
    (⟨"lb1", "svc1", .routes_to, .protocolPort (some "HTTP") (some 80)⟩ :
      Relationship) ∈
      discoverResourceRelationships envC1 [lbC1, svcC1] Option.none ∧
    discoverResourceRelationships envC1 [lbC1, svcC1] (some [svcC1]) = [] :=
  ⟨by decide, by decide⟩

/-- **C1 (witness)**: the amended theorem applied to the cluster/instance
example with focus `[instanceA]`. -/
theorem discovery_focus_scoping_witness :
    (∃ x ∈ discoverResourceRelationships emptyEnv [clusterA, instanceA]
        Option.none,
      dedupKey x = dedupKey ⟨"i1", "c1", .instance_of, .none⟩) ∧
    ((⟨"i1", "c1", .instance_of, .none⟩ : Relationship).sourceId ∈
        [instanceA].map (fun r => r.id) ∨
      (⟨"i1", "c1", .instance_of, .none⟩ : Relationship).targetId ∈
        [instanceA].map (fun r => r.id)) :=
  discovery_focus_scoping emptyEnv [clusterA, instanceA] [instanceA]
    (by decide) _ (by decide)

/-- **C2**: the final edge list of `discoverResourceRelationships` holds at
most one edge per `(sourceId, targetId, type)` triple, and an edge is in the
output exactly when it occurs in the raw candidate list at a position
preceded by no edge with the same dedup key — i.e. the first-emitted edge of
each key (with its metadata) wins and later duplicates are dropped. -/
theorem discovery_dedup_unique_first (env : Env) (S : List Resource)
    (focus : Option (List Resource)) :
    (discoverResourceRelationships env S focus).Pairwise
      (fun a b => ¬(a.sourceId = b.sourceId ∧ a.targetId = b.targetId ∧
        a.type = b.type)) ∧
    ∀ e, e ∈ discoverResourceRelationships env S focus ↔
      ∃ l1 l2, rawRelationships env S focus = l1 ++ e :: l2 ∧
        ∀ x ∈ l1, dedupKey x ≠ dedupKey e := by
  constructor
  · refine List.Pairwise.imp ?_ (dedup_pairwise [] _)
    intro a b hne hab
    exact hne (by simp [dedupKey, hab.1, hab.2.1, hab.2.2])
  · intro e
    constructor
    · intro he
      exact first_of_mem_dedup he
    · rintro ⟨l1, l2, hsplit, hall⟩
      show e ∈ dedupRelationships [] (rawRelationships env S focus)
      rw [hsplit]
      exact mem_dedup_of_first l1 l2 e [] (by simp) hall

/-- **C2 (witness)**: uniqueness of the dedup triples on a concrete
discovery run. -/
theorem discovery_dedup_unique_first_witness :
    (discoverResourceRelationships envC1 [lbC1, svcC1] Option.none).Pairwise
      (fun a b => ¬(a.sourceId = b.sourceId ∧ a.targetId = b.targetId ∧
        a.type = b.type)) :=
  (discovery_dedup_unique_first envC1 [lbC1, svcC1] Option.none).1

/-- **C3**: for a non-fixture resource, the resolver's output for one rule is
exactly the set of `connects_to` edges over the rule's group references, with
the direction convention — inbound: from the resource holding the referenced
group to the rule owner; outbound: reversed — and with
`metadata.securityGroups.rules` carrying the rule's protocol and port
range. -/
theorem securityGroup_rule_direction (rule : SGRule) (res : Resource)
    (all : List Resource) (gid : String) (dir : Direction)
    (hfix : ¬(res.name = "database-2-instance-1" ∧
      res.application = "test-app2")) :
    ∀ e, e ∈ processSecurityGroupRule rule res all gid dir ↔
      ∃ sgRef ∈ rule.userIdGroupPairs, ∃ t ∈ all,
        usesSG sgRef.groupId t = true ∧ t.id ≠ res.id ∧
        e = ⟨(if dir = .inbound then t.id else res.id),
             (if dir = .inbound then res.id else t.id),
             .connects_to,
             .securityGroups
               ⟨(if dir = .inbound then [sgRef.groupId] else [gid]),
                (if dir = .inbound then [gid] else [sgRef.groupId]),
                [⟨rule.ipProtocol, rule.fromPort, rule.toPort, sgRef.groupId,
                  dir⟩]⟩⟩ := by
  intro e
  have hmock : (res.name == "database-2-instance-1" &&
      res.application == "test-app2") = false := by
    rw [Bool.eq_false_iff]
    intro hc
    rw [Bool.and_eq_true, beq_iff_eq, beq_iff_eq] at hc
    exact hfix hc
  simp only [processSecurityGroupRule, hmock, Bool.false_eq_true, if_false,
    List.nil_append, List.mem_flatMap, List.mem_map, List.mem_filter,
    bne_iff_ne]
  constructor
  · rintro ⟨sgRef, hsg, t, ⟨⟨htAll, htUses⟩, htNe⟩, rfl⟩
    exact ⟨sgRef, hsg, t, htAll, htUses, htNe, rfl⟩
  · rintro ⟨sgRef, hsg, t, htAll, htUses, htNe, rfl⟩
    exact ⟨sgRef, hsg, t, ⟨⟨htAll, htUses⟩, htNe⟩, rfl⟩

/-- **C3 (witness)**: the inbound convention edge on a concrete rule: the
edge points from the holder of the referenced group to the rule owner and
carries the rule's protocol and ports. -/
theorem securityGroup_rule_direction_witness :
    (⟨"b1", "a1", .connects_to,
      .securityGroups ⟨["sg-ref"], ["sg-a"],
        [⟨some "tcp", some 443, some 443, "sg-ref", .inbound⟩]⟩⟩ :
      Relationship) ∈
      processSecurityGroupRule ruleC3 resC3 [tgtC3] "sg-a" .inbound :=
  (securityGroup_rule_direction ruleC3 resC3 [tgtC3] "sg-a" .inbound
    (by decide) _).mpr
    ⟨⟨"sg-ref"⟩, by decide, tgtC3, by decide, by decide, by decide, by decide⟩

/-- **C4 (code evaluation at the failing input)**: the `ec2` case re-wraps
resolver connections as `{sourceId: resource.id, targetId:
connection.targetId}`, so an inbound rule on an EC2 instance's group yields a
self-edge `e1 → e1` (with empty protocol/port metadata) in the final
discovery output, violating the no-self-edge invariant. -/
theorem discovery_self_edge_bug :
    (⟨"e1", "e1", .connects_to, .protocolPort Option.none Option.none⟩ :
      Relationship) ∈
      discoverResourceRelationships envC4 [ec2C4, otherC4] Option.none := by
  decide

/-- **C5**: when the focus list (if any) is drawn from the full resource set
`S`, both endpoints of every discovered edge are ids of resources in `S`;
no edge carries an unresolved endpoint. -/
theorem discovery_endpoints_in_resource_set (env : Env) (S : List Resource)
    (focus : Option (List Resource))
    (hsub : ∀ F, focus = some F → ∀ r ∈ F, r ∈ S) :
    ∀ e ∈ discoverResourceRelationships env S focus,
      e.sourceId ∈ S.map (fun r => r.id) ∧
      e.targetId ∈ S.map (fun r => r.id) := by
  intro e he
  have hraw : e ∈ rawRelationships env S focus := mem_of_mem_dedup he
  simp only [rawRelationships] at hraw
  rw [List.mem_flatMap] at hraw
  obtain ⟨r, hrIn, he2⟩ := hraw
  have hrS : r ∈ S := by
    cases focus with
    | none => simpa using hrIn
    | some F => exact hsub F rfl r (by simpa using hrIn)
  obtain ⟨hs, ht, _⟩ := processResource_scoped he2
  constructor
  · rcases hs with h | ⟨t, htS, h⟩
    · exact List.mem_map.mpr ⟨r, hrS, h.symm⟩
    · exact List.mem_map.mpr ⟨t, htS, h.symm⟩
  · rcases ht with h | ⟨t, htS, h⟩
    · exact List.mem_map.mpr ⟨r, hrS, h.symm⟩
    · exact List.mem_map.mpr ⟨t, htS, h.symm⟩

/-- **C5 (witness)**: endpoint resolution on a concrete discovery run with a
Lambda trigger edge. -/
theorem discovery_endpoints_in_resource_set_witness :
    (⟨"api1", "l5", .triggers, .eventType "apigateway.amazonaws.com"⟩ :
        Relationship).sourceId ∈
      [apiC5, lambdaC5].map (fun r => r.id) ∧
    (⟨"api1", "l5", .triggers, .eventType "apigateway.amazonaws.com"⟩ :
        Relationship).targetId ∈
      [apiC5, lambdaC5].map (fun r => r.id) :=
  discovery_endpoints_in_resource_set envC5 [apiC5, lambdaC5] Option.none
    (fun F h => nomatch h) _ (by decide)

/-- **C6 (amended)**: the instance-side pass emits the `instance_of` edge to
the first cluster matching the declared `clusterId` by exact id or by an id
ending in `:cluster:<clusterId>` — display-name equality is not tried on the
instance side — and the specification's concrete example (focus on the
instance, cluster matched by exact id) does hold. -/
theorem auroraInstance_cluster_matching :
    (∀ (env : Env) (all : List Resource) (res : Resource) (cid : String)
        (parent : Resource),
      res.type = "aurora-instance" → res.clusterId = some cid → cid ≠ "" →
      all.find? (fun r => r.type == "aurora" &&
        (r.id == cid || strEndsWith r.id (":cluster:" ++ cid))) =
          some parent →
      (⟨res.id, parent.id, .instance_of, .none⟩ : Relationship) ∈
        processResource env all res) ∧
    (⟨"i1", "c1", .instance_of, .none⟩ : Relationship) ∈
      discoverResourceRelationships emptyEnv [clusterA, instanceA]
        (some [instanceA]) := by
  constructor
  · intro env all res cid parent htype hcid hne hfind
    have hsel : processResource env all res =
        processAuroraInstance env all res := by
      simp [processResource, htype]
    rw [hsel]
    simp only [processAuroraInstance, hcid]
    rw [if_neg hne, hfind]
    exact List.mem_append_left _ (List.mem_singleton_self _)
  · decide

/-- **C6 (counterexample)**: an instance whose `clusterId` equals only the
cluster's display name gets no `instance_of` edge when discovery is focused
on the instance (the full pass finds it from the cluster side only),
refuting the claimed display-name matching strategy of the instance-side
lookup. -/
theorem auroraInstance_cluster_matching_counterexample :
    clusterN.name = "mycluster" ∧ instN.clusterId = some "mycluster" ∧
    discoverResourceRelationships emptyEnv [clusterN, instN]
      (some [instN]) = [] ∧
    (⟨"i9", "cid-1", .instance_of, .none⟩ : Relationship) ∈
      discoverResourceRelationships emptyEnv [clusterN, instN]
        Option.none := by
  refine ⟨rfl, rfl, by decide, by decide⟩

/-- **C6 (witness)**: the amended matching rule applied at the
specification's own example. -/
theorem auroraInstance_cluster_matching_witness :
    (⟨"i1", "c1", .instance_of, .none⟩ : Relationship) ∈
      processResource emptyEnv [clusterA, instanceA] instanceA :=
  auroraInstance_cluster_matching.1 emptyEnv [clusterA, instanceA] instanceA
    "c1" clusterA rfl rfl (by decide) (by decide)

/-- **C7 (amended)**: when every remote lookup for a resource `r` of a
remote-data-only extractor type fails, `r` contributes no edges, and the
batch is unaffected: discovery over a focus list containing `r` equals
discovery over the focus list without `r`.  (The original claim's "zero
edges for that resource" under any single lookup failure is refuted by the
counterexample: a Lambda with a failing policy lookup still emits
`depends_on` edges.) -/
theorem discovery_failure_isolation (env : Env) (S F : List Resource)
    (r : Resource) (hfail : remoteLookupsFail env r)
    (honly : remoteOnlyType r) (huniq : ∀ x ∈ F, x.id = r.id → x = r) :
    processResource env S r = [] ∧
    discoverResourceRelationships env S (some F) =
      discoverResourceRelationships env S
        (some (F.filter (fun x => x.id != r.id))) := by
  have hnil : processResource env S r = [] :=
    processResource_eq_nil_of_fail hfail honly
  refine ⟨hnil, ?_⟩
  have hraw : rawRelationships env S (some F) =
      rawRelationships env S (some (F.filter (fun x => x.id != r.id))) := by
    simp only [rawRelationships, Option.getD_some]
    refine flatMap_eq_flatMap_filter F _ _ ?_
    intro x hx hpx
    have hxr : x.id = r.id := by
      simpa using hpx
    rw [huniq x hx hxr]
    exact hnil
  simp only [discoverResourceRelationships, hraw]

/-- **C7 (counterexample)**: the policy lookup of `fn-1` fails (models a
missing policy), yet discovery still returns a `depends_on` edge for that
Lambda from its environment-variable ARNs — the failure does not yield zero
edges for the resource. -/
theorem discovery_failure_isolation_counterexample :
    envC7.lambdaPolicy "fn-1" = Option.none ∧
    (⟨"l1", "arn:aws:db1", .depends_on, .accessType "environment"⟩ :
      Relationship) ∈
      discoverResourceRelationships envC7 [lambdaC7, dbC7] Option.none :=
  ⟨rfl, by decide⟩

/-- **C7 (witness)**: the amended isolation theorem applied to a Lambda all
of whose lookups fail. -/
theorem discovery_failure_isolation_witness :
    processResource emptyEnv [lambdaC7] lambdaC7 = [] ∧
    discoverResourceRelationships emptyEnv [lambdaC7] (some [lambdaC7]) =
      discoverResourceRelationships emptyEnv [lambdaC7]
        (some ([lambdaC7].filter (fun x => x.id != lambdaC7.id))) :=
  discovery_failure_isolation emptyEnv [lambdaC7] [lambdaC7] lambdaC7
    (by decide) (by decide) (by decide)

/-- **C8**: the renderer distinguishes the two empty states: an empty
resource list (to which no external node can be added) yields the message
`No resources to display` for any relationship and external lists, and a
non-empty resource list whose filter pass retains no relationship yields
`No relationships found between resources`; neither case produces a graph
outcome. -/
theorem renderer_empty_states :
    (∀ (rels : List Relationship) (ext : List Resource) (se : Bool),
      computeGraph [] rels ext se = .message "No resources to display") ∧
    (∀ (r : Resource) (rs : List Resource) (rels : List Relationship)
        (ext : List Resource) (se : Bool),
      (relevantPass (r :: rs) rels ext se).2 = [] →
      computeGraph (r :: rs) rels ext se =
        .message "No relationships found between resources") := by
  constructor
  · intro rels ext se
    simp [computeGraph, relevantPass_nil]
  · intro r rs rels ext se h2
    have h1 : (relevantPass (r :: rs) rels ext se).1 ≠ [] :=
      relevantPass_fst_ne_nil (by simp)
    simp only [computeGraph]
    rw [if_neg, if_pos]
    · rw [h2]
      rfl
    · simp [h1]

/-- **C8 (witness)**: the second empty state at the concrete input
`resources = [resC8]`, `relationships = []`. -/
theorem renderer_empty_states_witness :
    computeGraph [resC8] [] [] true =
      .message "No relationships found between resources" :=
  renderer_empty_states.2 resC8 [] [] [] true (by decide)

/-- **C9**: every link of a rendered graph has both endpoints resolved to
nodes of the graph (an edge referencing an absent id yields no link), and a
message replaces the canvas only when the filter pass left the node set or
the relationship set empty. -/
theorem renderer_link_resolution :
    (∀ (resources : List Resource) (rels : List Relationship)
        (ext : List Resource) (se : Bool) (nodes : List Resource)
        (links : List RenderLink),
      computeGraph resources rels ext se = .graph nodes links →
      ∀ l ∈ links, l.source ∈ nodes ∧ l.target ∈ nodes ∧
        l.source.id = l.relationship.sourceId ∧
        l.target.id = l.relationship.targetId) ∧
    (∀ (resources : List Resource) (rels : List Relationship)
        (ext : List Resource) (se : Bool) (s : String),
      computeGraph resources rels ext se = .message s →
      (relevantPass resources rels ext se).1 = [] ∨
      (relevantPass resources rels ext se).2 = []) := by
  constructor
  · intro resources rels ext se nodes links hg l hl
    simp only [computeGraph] at hg
    split at hg
    · simp at hg
    · split at hg
      · simp at hg
      · rw [RenderOutcome.graph.injEq] at hg
        obtain ⟨hn, hlinks⟩ := hg
        subst hn
        rw [← hlinks] at hl
        rw [List.mem_filterMap] at hl
        obtain ⟨rel, _, hmap⟩ := hl
        split at hmap
        case h_1 sNode tNode heqS heqT =>
          rw [Option.some.injEq] at hmap
          subst hmap
          exact ⟨List.mem_of_find?_eq_some heqS,
            List.mem_of_find?_eq_some heqT,
            by simpa using List.find?_some heqS,
            by simpa using List.find?_some heqT⟩
        case h_2 => simp at hmap
  · intro resources rels ext se s hm
    simp only [computeGraph] at hm
    split at hm
    case isTrue h1 => exact Or.inl (by simpa using h1)
    case isFalse h1 =>
      split at hm
      case isTrue h2 => exact Or.inr (by simpa using h2)
      case isFalse h2 => simp at hm

/-- **C9 (witness)**: the resolution property on a concrete render where one
edge references the absent id `zz` and is dropped. -/
theorem renderer_link_resolution_witness :
    resR1 ∈ [resR1, resR2] ∧ resR2 ∈ [resR1, resR2] ∧
    resR1.id = relR12.sourceId ∧ resR2.id = relR12.targetId := by
  have h := renderer_link_resolution.1 [resR1, resR2] [relR12, relRbad] []
    true [resR1, resR2] [⟨resR1, resR2, relR12⟩] (by decide)
    ⟨resR1, resR2, relR12⟩ (List.mem_singleton_self _)
  exact ⟨h.1, h.2.1, h.2.2.1, h.2.2.2⟩

theorem getSGC_mock_eq (env : Env) (res : Resource) (all : List Resource)
    (hmock : ((resolveSecurityGroupIds res).any
      (fun i => mockSecurityGroupIds.contains i)) = true) :
    getSecurityGroupConnections env res all =
      (if res.name == "database-2-instance-1" &&
          res.application == "test-app2" then []
       else if res.name == "service-test-2" &&
          res.application == "test-app2" then
         match all.find? (fun r => r.type == "aurora-instance" &&
             r.name == "database-2-instance-1") with
         | some db => [mockServiceConnection res db]
         | none => []
       else []) := by
  have hne : (resolveSecurityGroupIds res).isEmpty = false := by
    cases hl : resolveSecurityGroupIds res with
    | nil => rw [hl] at hmock; simp at hmock
    | cons a t => rfl
  simp only [getSecurityGroupConnections, hne, hmock, Bool.false_eq_true,
    if_false, eq_self_iff_true, if_true]

/-- **C10**: the hardcoded-fixture behavior of the resolver.  Whenever the
resolved security-group list contains the mock id, the resolver consults no
remote data (the result is environment-independent); for the fixture ECS
service `service-test-2` of `test-app2` it returns exactly the synthetic
`connects_to` edge (tcp 3306) to the first `aurora-instance` named
`database-2-instance-1`; for the fixture database instance, and for every
other resource holding the mock id, it returns no connection; and rule
processing for the fixture database instance emits the mirrored edge from
the fixture ECS service. -/
theorem mock_fixture_behavior :
    (∀ (env env2 : Env) (res : Resource) (all : List Resource),
      ((resolveSecurityGroupIds res).any
        (fun i => mockSecurityGroupIds.contains i)) = true →
      getSecurityGroupConnections env res all =
        getSecurityGroupConnections env2 res all) ∧
    (∀ (env : Env) (res : Resource) (all : List Resource) (db : Resource),
      ((resolveSecurityGroupIds res).any
        (fun i => mockSecurityGroupIds.contains i)) = true →
      res.name = "service-test-2" → res.application = "test-app2" →
      all.find? (fun r => r.type == "aurora-instance" &&
        r.name == "database-2-instance-1") = some db →
      getSecurityGroupConnections env res all =
        [mockServiceConnection res db]) ∧
    (∀ (env : Env) (res : Resource) (all : List Resource),
      ((resolveSecurityGroupIds res).any
        (fun i => mockSecurityGroupIds.contains i)) = true →
      res.name = "database-2-instance-1" → res.application = "test-app2" →
      getSecurityGroupConnections env res all = []) ∧
    (∀ (env : Env) (res : Resource) (all : List Resource),
      ((resolveSecurityGroupIds res).any
        (fun i => mockSecurityGroupIds.contains i)) = true →
      ¬(res.name = "service-test-2" ∧ res.application = "test-app2") →
      ¬(res.name = "database-2-instance-1" ∧
        res.application = "test-app2") →
      getSecurityGroupConnections env res all = []) ∧
    (∀ (rule : SGRule) (res : Resource) (all : List Resource) (gid : String)
        (dir : Direction) (ecsService : Resource),
      res.name = "database-2-instance-1" → res.application = "test-app2" →
      all.find? (fun r => r.type == "ecs" && r.application == "test-app2" &&
        r.name == "service-test-2") = some ecsService →
      mockRuleConnection ecsService res gid ∈
        processSecurityGroupRule rule res all gid dir) := by
  refine ⟨?_, ?_, ?_, ?_, ?_⟩
  · intro env env2 res all hmock
    rw [getSGC_mock_eq env res all hmock, getSGC_mock_eq env2 res all hmock]
  · intro env res all db hmock hname happ hfind
    rw [getSGC_mock_eq env res all hmock]
    simp [hname, happ, hfind]
  · intro env res all hmock hname happ
    rw [getSGC_mock_eq env res all hmock]
    simp [hname, happ]
  · intro env res all hmock hsvc hdb
    rw [getSGC_mock_eq env res all hmock]
    have hdb2 : (res.name == "database-2-instance-1" &&
        res.application == "test-app2") = false := by
      rw [Bool.eq_false_iff]
      intro hc
      rw [Bool.and_eq_true, beq_iff_eq, beq_iff_eq] at hc
      exact hdb hc
    have hsvc2 : (res.name == "service-test-2" &&
        res.application == "test-app2") = false := by
      rw [Bool.eq_false_iff]
      intro hc
      rw [Bool.and_eq_true, beq_iff_eq, beq_iff_eq] at hc
      exact hsvc hc
    simp [hdb2, hsvc2]
  · intro rule res all gid dir ecsService hname happ hfind
    simp [processSecurityGroupRule, hname, happ, hfind]

/-- **C10 (witness)**: the fixture ECS service resolves to exactly the
synthetic edge against a concrete resource set, without consulting any
remote data (the environment is the all-failing one). -/
theorem mock_fixture_behavior_witness :
    getSecurityGroupConnections emptyEnv svcC10 [dbC10, svcC10] =
      [mockServiceConnection svcC10 dbC10] :=
  mock_fixture_behavior.2.1 emptyEnv svcC10 [dbC10, svcC10] dbC10
    (by decide) rfl rfl (by decide)
